import Mathlib

/-!
Shallow embedding of the `multicore_fifo` library (src/MCF.c, src/MCF.h):
a fixed-capacity single-producer/single-consumer ring buffer of tagged
messages with two shared cursors (`head`, `tail`) and a parser callback
invoked by the drain loop.

Modelling choices, each forced by the C source:

* The C `MCF_t` instance holds *pointers* to the externally allocated
  buffer and cursor storage.  Since every operation acts through exactly
  one bound channel, instance and pointed-to storage are merged into one
  Lean structure: the `head`/`tail` fields hold the *contents* of the
  shared cursor variables, `msgBuf` the contents of the buffer array.
* `uint16_t` cursor values are `Nat`; the only place uint16 overflow can
  occur is the `(*tail)++` in `MCF_receive`, modelled by an explicit
  `% 65536`.  Payload values (`u16`, `i16`, `u32`, `i32`) are only ever
  copied, never computed with, so `Nat`/`Int` model them exactly; for the
  same reason `float` payloads are modelled by `Rat` (3.5 = 7/2 exactly).
* The anonymous payload union is a tagged sum: the C convention is that
  writing one member invalidates the others and only the written member
  is ever read back.
* The parser is a raw function pointer that `MCF_receive` calls once per
  consumed slot; it is modelled as an inert value of a type parameter
  `P`, and the sequence of parser invocations is returned as an explicit
  trace (the list of messages passed to the parser, in call order).
* The unbounded `while` loop of `MCF_receive` is modelled with explicit
  fuel (`MCF_receive_loop`); `MCF_receive` runs it with fuel
  `msgBufSize`, which is proved sufficient to reach the loop's exit
  condition whenever both cursors are in range.  Termination of the loop
  itself is treated separately (stabilisation of the fuelled unfolding).
-/

/-- Payload union of `MCF_Message_t`: one value of one of the five
supported types, tagged by which send variant wrote it. -/
inductive MCF_Payload where
  | f32 (v : Rat)
  | u16 (v : Nat)
  | u32 (v : Nat)
  | i16 (v : Int)
  | i32 (v : Int)
deriving DecidableEq, Inhabited

/-- Message element of the ring buffer: a 16-bit identifier plus the
payload union (`MCF_Message_t` in src/MCF.h). -/
structure MCF_Message_t where
  msgID : Nat
  payload : MCF_Payload
deriving DecidableEq, Inhabited

/-- Channel state (`MCF_t` in src/MCF.h, merged with the storage its
pointer fields reference).  `P` is the type of the opaque parser
callback value. -/
structure MCF_t (P : Type) where
  msgBuf : List MCF_Message_t
  head : Nat
  tail : Nat
  msgBufSize : Nat
  msgParser : P
deriving DecidableEq

variable {P : Type}

/-- Send of a 16-bit unsigned payload (`MCF_send_u16` in src/MCF.c):
compute the next head index (`head >= msgBufSize - 1 ? 0 : head + 1`),
write payload and identifier into that slot, publish the new head. -/
def MCF_send_u16 (s : MCF_t P) (msgID : Nat) (value : Nat) : MCF_t P :=
  let head := s.head
  let head := if s.msgBufSize - 1 ≤ head then 0 else head + 1
  { s with
    msgBuf := s.msgBuf.set head { msgID := msgID, payload := MCF_Payload.u16 value }
    head := head }

/-- Send of a 16-bit signed payload (`MCF_send_i16` in src/MCF.c). -/
def MCF_send_i16 (s : MCF_t P) (msgID : Nat) (value : Int) : MCF_t P :=
  let head := s.head
  let head := if s.msgBufSize - 1 ≤ head then 0 else head + 1
  { s with
    msgBuf := s.msgBuf.set head { msgID := msgID, payload := MCF_Payload.i16 value }
    head := head }

/-- Send of a 32-bit unsigned payload (`MCF_send_u32` in src/MCF.c). -/
def MCF_send_u32 (s : MCF_t P) (msgID : Nat) (value : Nat) : MCF_t P :=
  let head := s.head
  let head := if s.msgBufSize - 1 ≤ head then 0 else head + 1
  { s with
    msgBuf := s.msgBuf.set head { msgID := msgID, payload := MCF_Payload.u32 value }
    head := head }

/-- Send of a 32-bit signed payload (`MCF_send_i32` in src/MCF.c). -/
def MCF_send_i32 (s : MCF_t P) (msgID : Nat) (value : Int) : MCF_t P :=
  let head := s.head
  let head := if s.msgBufSize - 1 ≤ head then 0 else head + 1
  { s with
    msgBuf := s.msgBuf.set head { msgID := msgID, payload := MCF_Payload.i32 value }
    head := head }

/-- Send of a 32-bit float payload (`MCF_send_f32` in src/MCF.c). -/
def MCF_send_f32 (s : MCF_t P) (msgID : Nat) (value : Rat) : MCF_t P :=
  let head := s.head
  let head := if s.msgBufSize - 1 ≤ head then 0 else head + 1
  { s with
    msgBuf := s.msgBuf.set head { msgID := msgID, payload := MCF_Payload.f32 value }
    head := head }

/-- Fuelled unfolding of the drain loop of `MCF_receive` (src/MCF.c):
`while (*head != *tail) { (*tail)++; if (*tail >= msgBufSize) *tail = 0;
msgParser(&msgBuf[*tail]); }`.  The `% 65536` models the uint16
increment of the tail cursor.  Returns the final state together with the
trace of messages passed to the parser, in invocation order.  Fuel 0
stands for a loop that has not been allowed to run its exit check. -/
def MCF_receive_loop : Nat → MCF_t P → MCF_t P × List MCF_Message_t
  | 0, s => (s, [])
  | fuel + 1, s =>
    if s.head = s.tail then (s, [])
    else
      let t := (s.tail + 1) % 65536
      let t := if s.msgBufSize ≤ t then 0 else t
      let s1 : MCF_t P := { s with tail := t }
      let rest := MCF_receive_loop fuel s1
      (rest.1, s1.msgBuf.getD t default :: rest.2)

/-- Drain operation (`MCF_receive` in src/MCF.c).  Fuel `msgBufSize` is
proved sufficient to reach the loop's exit condition whenever both
cursors are below the capacity (`MCF_receive_loop_drain`); termination
of the loop for arbitrary tail values is stated via `MCF_receive_loop`
directly. -/
def MCF_receive (s : MCF_t P) : MCF_t P × List MCF_Message_t :=
  MCF_receive_loop s.msgBufSize s

/-- Configuration for transmission only (`MCF_init_TX` in src/MCF.c):
binds buffer and cursor storage, stores the capacity, resets the head
cursor to 0.  `tailVal` is the current content of the caller-supplied
tail variable, which this mode does not write; `oldParser` is the
instance's prior parser field, which this mode does not set. -/
def MCF_init_TX (oldParser : P) (tailVal : Nat) (MsgBuf : List MCF_Message_t)
    (BufSize : Nat) : MCF_t P :=
  { msgBuf := MsgBuf
    head := 0
    tail := tailVal
    msgBufSize := BufSize
    msgParser := oldParser }

/-- Configuration for reception only (`MCF_init_RX` in src/MCF.c):
binds buffer and cursor storage, stores capacity and parser, resets the
tail cursor to 0.  `headVal` is the current content of the
caller-supplied head variable, which this mode does not write. -/
def MCF_init_RX (headVal : Nat) (MsgBuf : List MCF_Message_t) (BufSize : Nat)
    (msgParser : P) : MCF_t P :=
  { msgBuf := MsgBuf
    head := headVal
    tail := 0
    msgBufSize := BufSize
    msgParser := msgParser }

/-- Combined configuration (`MCF_init_RXTX` in src/MCF.c): binds buffer
and cursor storage, stores capacity and parser, resets both cursors to
0. -/
def MCF_init_RXTX (MsgBuf : List MCF_Message_t) (BufSize : Nat) (msgParser : P) :
    MCF_t P :=
  { msgBuf := MsgBuf
    head := 0
    tail := 0
    msgBufSize := BufSize
    msgParser := msgParser }

/-- One producer-side call, abstracting over which of the five typed
send variants is invoked and with which identifier and value. -/
inductive SendOp where
  | u16 (msgID : Nat) (v : Nat)
  | i16 (msgID : Nat) (v : Int)
  | u32 (msgID : Nat) (v : Nat)
  | i32 (msgID : Nat) (v : Int)
  | f32 (msgID : Nat) (v : Rat)
deriving DecidableEq, Inhabited

/-- Dispatch a `SendOp` to the corresponding `MCF_send_*` function. -/
def doSend (s : MCF_t P) : SendOp → MCF_t P
  | .u16 msgID v => MCF_send_u16 s msgID v
  | .i16 msgID v => MCF_send_i16 s msgID v
  | .u32 msgID v => MCF_send_u32 s msgID v
  | .i32 msgID v => MCF_send_i32 s msgID v
  | .f32 msgID v => MCF_send_f32 s msgID v

/-- The message a `SendOp` writes into its slot. -/
def opMsg : SendOp → MCF_Message_t
  | .u16 msgID v => { msgID := msgID, payload := MCF_Payload.u16 v }
  | .i16 msgID v => { msgID := msgID, payload := MCF_Payload.i16 v }
  | .u32 msgID v => { msgID := msgID, payload := MCF_Payload.u32 v }
  | .i32 msgID v => { msgID := msgID, payload := MCF_Payload.i32 v }
  | .f32 msgID v => { msgID := msgID, payload := MCF_Payload.f32 v }

/-- Perform a sequence of sends, left to right. -/
def sendAll (s : MCF_t P) (L : List SendOp) : MCF_t P :=
  L.foldl doSend s

/-- Alternate batches of sends with drains: for each batch, perform its
sends then one `MCF_receive`; collect the trace of each drain. -/
def runBatches (s : MCF_t P) : List (List SendOp) → MCF_t P × List (List MCF_Message_t)
  | [] => (s, [])
  | b :: bs =>
    let s1 := sendAll s b
    let r1 := MCF_receive s1
    let r2 := runBatches r1.1 bs
    (r2.1, r1.2 :: r2.2)

/-- Forward circular distance from `tail` to `head` modulo `cap`: the
number of pending (sent, not yet parsed) slots. -/
def circDist (cap tail head : Nat) : Nat :=
  (head + cap - tail) % cap

/-! ### Arithmetic helpers for the circular cursor -/

lemma circDist_closed (cap tail head : Nat) (ht : tail < cap) (hh : head < cap) :
    circDist cap tail head = if tail ≤ head then head - tail else head + cap - tail := by
  unfold circDist
  split_ifs with hle
  · have h1 : head + cap - tail = cap + (head - tail) := by omega
    rw [h1, Nat.add_mod_left, Nat.mod_eq_of_lt (by omega)]
  · exact Nat.mod_eq_of_lt (by omega)

lemma circDist_eq_zero_iff (cap tail head : Nat) (ht : tail < cap) (hh : head < cap) :
    circDist cap tail head = 0 ↔ head = tail := by
  rw [circDist_closed cap tail head ht hh]
  split_ifs <;> omega

lemma wrap_step (cap t : Nat) (hcap : cap ≤ 65535) (ht : t < cap) :
    (if cap ≤ (t + 1) % 65536 then 0 else (t + 1) % 65536) = (t + 1) % cap := by
  have h1 : (t + 1) % 65536 = t + 1 := Nat.mod_eq_of_lt (by omega)
  rw [h1]
  split_ifs with h2
  · have h3 : t + 1 = cap := by omega
    rw [h3, Nat.mod_self]
  · exact (Nat.mod_eq_of_lt (by omega)).symm

lemma circDist_step (cap tail head : Nat) (ht : tail < cap) (hh : head < cap)
    (hne : head ≠ tail) :
    circDist cap ((tail + 1) % cap) head + 1 = circDist cap tail head := by
  by_cases h1 : tail + 1 = cap
  · have h2 : (tail + 1) % cap = 0 := by rw [h1, Nat.mod_self]
    rw [h2, circDist_closed cap 0 head (by omega) hh,
      circDist_closed cap tail head ht hh]
    split_ifs <;> omega
  · have h2 : (tail + 1) % cap = tail + 1 := Nat.mod_eq_of_lt (by omega)
    rw [h2, circDist_closed cap (tail + 1) head (by omega) hh,
      circDist_closed cap tail head ht hh]
    split_ifs <;> omega

lemma circDist_add (cap c k : Nat) (hc : c < cap) (hk : k < cap) :
    circDist cap c ((c + k) % cap) = k := by
  by_cases h1 : c + k < cap
  · rw [Nat.mod_eq_of_lt h1, circDist_closed cap c (c + k) hc h1]
    split_ifs <;> omega
  · have h2 : (c + k) % cap = c + k - cap := by
      rw [Nat.mod_eq_sub_mod (by omega)]
      exact Nat.mod_eq_of_lt (by omega)
    rw [h2, circDist_closed cap c (c + k - cap) hc (by omega)]
    split_ifs <;> omega

/-! ### Drain loop: unfolding and specification -/

lemma MCF_receive_loop_zero {P : Type} (s : MCF_t P) :
    MCF_receive_loop 0 s = (s, []) := rfl

lemma MCF_receive_loop_exit {P : Type} (fuel : Nat) (s : MCF_t P)
    (h : s.head = s.tail) : MCF_receive_loop (fuel + 1) s = (s, []) := by
  simp [MCF_receive_loop, h]

lemma MCF_receive_loop_cons {P : Type} (fuel : Nat) (s : MCF_t P)
    (h : ¬ s.head = s.tail) :
    MCF_receive_loop (fuel + 1) s =
      ((MCF_receive_loop fuel
          { s with tail := if s.msgBufSize ≤ (s.tail + 1) % 65536 then 0
                           else (s.tail + 1) % 65536 }).1,
        s.msgBuf.getD (if s.msgBufSize ≤ (s.tail + 1) % 65536 then 0
                       else (s.tail + 1) % 65536) default ::
        (MCF_receive_loop fuel
          { s with tail := if s.msgBufSize ≤ (s.tail + 1) % 65536 then 0
                           else (s.tail + 1) % 65536 }).2) := by
  simp [MCF_receive_loop, h]

lemma MCF_t_eta_tail {P : Type} (s : MCF_t P) (he : s.head = s.tail) :
    ({ s with tail := s.head } : MCF_t P) = s := by
  obtain ⟨a, b, c, d, e⟩ := s
  cases he
  rfl

lemma MCF_receive_loop_drain {P : Type} (fuel : Nat) :
    ∀ (s : MCF_t P), s.msgBufSize ≤ 65535 → s.head < s.msgBufSize →
    s.tail < s.msgBufSize → circDist s.msgBufSize s.tail s.head ≤ fuel →
    (MCF_receive_loop fuel s).1 = { s with tail := s.head } ∧
    (MCF_receive_loop fuel s).2 =
      (List.range (circDist s.msgBufSize s.tail s.head)).map
        (fun i => s.msgBuf.getD ((s.tail + 1 + i) % s.msgBufSize) default) := by
  induction fuel with
  | zero =>
    intro s h65 hh ht hf
    have hd : circDist s.msgBufSize s.tail s.head = 0 := by omega
    have he : s.head = s.tail := (circDist_eq_zero_iff _ _ _ ht hh).mp hd
    rw [MCF_receive_loop_zero, hd, MCF_t_eta_tail s he]
    simp
  | succ fuel ih =>
    intro s h65 hh ht hf
    by_cases he : s.head = s.tail
    · have hd : circDist s.msgBufSize s.tail s.head = 0 :=
        (circDist_eq_zero_iff _ _ _ ht hh).mpr he
      rw [MCF_receive_loop_exit fuel s he, hd, MCF_t_eta_tail s he]
      simp
    · rw [MCF_receive_loop_cons fuel s he]
      rw [wrap_step s.msgBufSize s.tail h65 ht]
      have hcap : 0 < s.msgBufSize := by omega
      have ht1 : (s.tail + 1) % s.msgBufSize < s.msgBufSize := Nat.mod_lt _ hcap
      have hd1 : circDist s.msgBufSize ((s.tail + 1) % s.msgBufSize) s.head + 1 =
          circDist s.msgBufSize s.tail s.head :=
        circDist_step s.msgBufSize s.tail s.head ht hh he
      have ihs := ih { s with tail := (s.tail + 1) % s.msgBufSize } h65 hh ht1 (by
        show circDist s.msgBufSize ((s.tail + 1) % s.msgBufSize) s.head ≤ fuel
        omega)
      constructor
      · rw [ihs.1]
      · dsimp only
        rw [ihs.2]
        dsimp only
        rw [← hd1, List.range_succ_eq_map, List.map_cons, List.map_map]
        rw [show s.tail + 1 + 0 = s.tail + 1 by omega]
        congr 1
        apply List.map_congr_left
        intro i _
        simp only [Function.comp]
        rw [Nat.add_assoc ((s.tail + 1) % s.msgBufSize) 1 i, Nat.mod_add_mod,
          show s.tail + 1 + (1 + i) = s.tail + 1 + i.succ by omega]

/-- Pair form of the drain specification, at the fuel `MCF_receive`
actually uses. -/
lemma MCF_receive_drain {P : Type} (s : MCF_t P) (h65 : s.msgBufSize ≤ 65535)
    (hh : s.head < s.msgBufSize) (ht : s.tail < s.msgBufSize) :
    MCF_receive s =
      ({ s with tail := s.head },
       (List.range (circDist s.msgBufSize s.tail s.head)).map
         (fun i => s.msgBuf.getD ((s.tail + 1 + i) % s.msgBufSize) default)) := by
  have hcap : 0 < s.msgBufSize := by omega
  have hf : circDist s.msgBufSize s.tail s.head ≤ s.msgBufSize :=
    Nat.le_of_lt (Nat.mod_lt _ hcap)
  have h := MCF_receive_loop_drain s.msgBufSize s h65 hh ht hf
  calc MCF_receive s = ((MCF_receive s).1, (MCF_receive s).2) := rfl
    _ = _ := by rw [show (MCF_receive s).1 = (MCF_receive_loop s.msgBufSize s).1 from rfl,
            show (MCF_receive s).2 = (MCF_receive_loop s.msgBufSize s).2 from rfl,
            h.1, h.2]

/-! ### Send step and send sequences -/

lemma next_head_eq (cap head : Nat) (hh : head < cap) :
    (if cap - 1 ≤ head then 0 else head + 1) = (head + 1) % cap := by
  split_ifs with h
  · have h1 : head + 1 = cap := by omega
    rw [h1, Nat.mod_self]
  · exact (Nat.mod_eq_of_lt (by omega)).symm

lemma doSend_eq {P : Type} (s : MCF_t P) (op : SendOp) (hh : s.head < s.msgBufSize) :
    doSend s op =
      { s with
        head := (s.head + 1) % s.msgBufSize
        msgBuf := s.msgBuf.set ((s.head + 1) % s.msgBufSize) (opMsg op) } := by
  cases op <;>
    simp only [doSend, MCF_send_u16, MCF_send_i16, MCF_send_u32, MCF_send_i32,
      MCF_send_f32, opMsg, next_head_eq s.msgBufSize s.head hh]

lemma doSend_tail {P : Type} (s : MCF_t P) (op : SendOp) :
    (doSend s op).tail = s.tail := by
  cases op <;> rfl

lemma doSend_msgBufSize {P : Type} (s : MCF_t P) (op : SendOp) :
    (doSend s op).msgBufSize = s.msgBufSize := by
  cases op <;> rfl

lemma doSend_msgParser {P : Type} (s : MCF_t P) (op : SendOp) :
    (doSend s op).msgParser = s.msgParser := by
  cases op <;> rfl

lemma doSend_length {P : Type} (s : MCF_t P) (op : SendOp) :
    (doSend s op).msgBuf.length = s.msgBuf.length := by
  cases op <;> simp [doSend, MCF_send_u16, MCF_send_i16, MCF_send_u32,
    MCF_send_i32, MCF_send_f32, List.length_set]

lemma doSend_head_lt {P : Type} (s : MCF_t P) (op : SendOp)
    (hcap : 0 < s.msgBufSize) : (doSend s op).head < s.msgBufSize := by
  cases op <;>
    · simp only [doSend, MCF_send_u16, MCF_send_i16, MCF_send_u32, MCF_send_i32,
        MCF_send_f32]
      split_ifs <;> omega

lemma sendAll_nil {P : Type} (s : MCF_t P) : sendAll s [] = s := rfl

lemma sendAll_cons {P : Type} (s : MCF_t P) (op : SendOp) (L : List SendOp) :
    sendAll s (op :: L) = sendAll (doSend s op) L := rfl

lemma sendAll_concat {P : Type} (s : MCF_t P) (L : List SendOp) (op : SendOp) :
    sendAll s (L ++ [op]) = doSend (sendAll s L) op := by
  simp [sendAll, List.foldl_append]

lemma sendAll_tail {P : Type} (L : List SendOp) :
    ∀ (s : MCF_t P), (sendAll s L).tail = s.tail := by
  induction L with
  | nil => intro s; rfl
  | cons op L ih => intro s; rw [sendAll_cons, ih, doSend_tail]

lemma sendAll_msgBufSize {P : Type} (L : List SendOp) :
    ∀ (s : MCF_t P), (sendAll s L).msgBufSize = s.msgBufSize := by
  induction L with
  | nil => intro s; rfl
  | cons op L ih => intro s; rw [sendAll_cons, ih, doSend_msgBufSize]

lemma sendAll_msgParser {P : Type} (L : List SendOp) :
    ∀ (s : MCF_t P), (sendAll s L).msgParser = s.msgParser := by
  induction L with
  | nil => intro s; rfl
  | cons op L ih => intro s; rw [sendAll_cons, ih, doSend_msgParser]

lemma sendAll_length {P : Type} (L : List SendOp) :
    ∀ (s : MCF_t P), (sendAll s L).msgBuf.length = s.msgBuf.length := by
  induction L with
  | nil => intro s; rfl
  | cons op L ih => intro s; rw [sendAll_cons, ih, doSend_length]

lemma sendAll_head {P : Type} (L : List SendOp) :
    ∀ (s : MCF_t P), s.head < s.msgBufSize →
    (sendAll s L).head = (s.head + L.length) % s.msgBufSize := by
  induction L with
  | nil =>
    intro s hh
    rw [sendAll_nil, List.length_nil, Nat.add_zero, Nat.mod_eq_of_lt hh]
  | cons op L ih =>
    intro s hh
    have hcap : 0 < s.msgBufSize := by omega
    rw [sendAll_cons]
    have h1 := ih (doSend s op) (by rw [doSend_msgBufSize]; exact doSend_head_lt s op hcap)
    rw [h1, doSend_msgBufSize, doSend_eq s op hh]
    dsimp only
    rw [Nat.mod_add_mod, List.length_cons]
    congr 1
    omega

/-- Contents of the buffer after a run of sends: counting `i` slots
backwards (circularly) from the final head position, one finds the
message of the `i`-th-from-last send, for every `i` below both the
number of sends and the capacity. -/
lemma sendAll_getD {P : Type} (L : List SendOp) :
    ∀ (s : MCF_t P), s.head < s.msgBufSize → s.msgBuf.length = s.msgBufSize →
    ∀ i, i < L.length → i < s.msgBufSize →
    (sendAll s L).msgBuf.getD ((s.head + L.length - i) % s.msgBufSize) default
      = opMsg (L.getD (L.length - 1 - i) default) := by
  induction L using List.reverseRecOn with
  | nil =>
    intro s hh hlen i hi hicap
    exact absurd hi (by simp)
  | append_singleton M op ih =>
    intro s hh hlen i hi hicap
    rw [List.length_append, List.length_singleton] at hi
    have hcap : 0 < s.msgBufSize := by omega
    have hm : (sendAll s M).head = (s.head + M.length) % s.msgBufSize :=
      sendAll_head M s hh
    have hmlt : (sendAll s M).head < (sendAll s M).msgBufSize := by
      rw [hm, sendAll_msgBufSize]
      exact Nat.mod_lt _ hcap
    have hsz : (sendAll s M).msgBufSize = s.msgBufSize := sendAll_msgBufSize M s
    have hlen2 : (sendAll s M).msgBuf.length = s.msgBufSize := by
      rw [sendAll_length, hlen]
    have hw : ((sendAll s M).head + 1) % (sendAll s M).msgBufSize
        = (s.head + M.length + 1) % s.msgBufSize := by
      rw [hm, hsz, Nat.mod_add_mod]
    rw [sendAll_concat, doSend_eq (sendAll s M) op hmlt]
    dsimp only
    rw [List.length_append, List.length_singleton]
    rcases Nat.eq_zero_or_pos i with hi0 | hipos
    · subst hi0
      rw [hw]
      have hidx : (s.head + (M.length + 1) - 0) % s.msgBufSize
          = (s.head + M.length + 1) % s.msgBufSize := by
        rw [Nat.sub_zero, ← Nat.add_assoc]
      rw [hidx]
      rw [List.getD_eq_getElem?_getD,
        List.getElem?_set_self (by rw [hlen2]; exact Nat.mod_lt _ hcap)]
      have hgoal : (M ++ [op]).getD (M.length + 1 - 1 - 0) default = op := by
        rw [List.getD_eq_getElem?_getD,
          show M.length + 1 - 1 - 0 = M.length by omega,
          List.getElem?_concat_length]
        rfl
      rw [hgoal]
      rfl
    · -- the slot of an earlier message is distinct from the slot just written
      have hne : (s.head + (M.length + 1) - i) % s.msgBufSize
          ≠ (s.head + M.length + 1) % s.msgBufSize := by
        intro hcontra
        have hile : i ≤ s.head + M.length + 1 := by omega
        have h1 : s.head + (M.length + 1) - i = s.head + M.length + 1 - i := by
          omega
        rw [h1] at hcontra
        have hmodeq : Nat.ModEq s.msgBufSize (s.head + M.length + 1 - i)
            (s.head + M.length + 1) := hcontra
        have hdvd : s.msgBufSize ∣ (s.head + M.length + 1) - (s.head + M.length + 1 - i) :=
          (Nat.modEq_iff_dvd' (by omega)).mp hmodeq
        rw [Nat.sub_sub_self hile] at hdvd
        have := Nat.eq_zero_of_dvd_of_lt hdvd hicap
        omega
      rw [hw]
      rw [List.getD_eq_getElem?_getD, List.getElem?_set_ne (Ne.symm hne),
        ← List.getD_eq_getElem?_getD]
      have h2 : (s.head + (M.length + 1) - i) % s.msgBufSize
          = (s.head + M.length - (i - 1)) % s.msgBufSize := by
        congr 1
        omega
      rw [h2]
      have h3 := ih s hh hlen (i - 1) (by omega) (by omega)
      rw [h3]
      have h4 : M.length - 1 - (i - 1) = M.length + 1 - 1 - i := by omega
      have h5 : M.length + 1 - 1 - i < M.length := by omega
      rw [h4] at h3 ⊢
      congr 1
      rw [List.getD_eq_getElem?_getD, List.getD_eq_getElem?_getD,
        List.getElem?_append_left h5]

/-- Round trip: from a state with equal in-range cursors, sending at
most capacity − 1 messages and then draining delivers exactly those
messages, in order, and re-equalises the cursors. -/
lemma sends_then_drain {P : Type} (s : MCF_t P) (L : List SendOp)
    (h65 : s.msgBufSize ≤ 65535) (hh : s.head < s.msgBufSize)
    (he : s.head = s.tail) (hlen : s.msgBuf.length = s.msgBufSize)
    (hL : L.length ≤ s.msgBufSize - 1) :
    MCF_receive (sendAll s L)
      = ({ sendAll s L with tail := (sendAll s L).head }, L.map opMsg) := by
  have hcap : 0 < s.msgBufSize := by omega
  have hsz : (sendAll s L).msgBufSize = s.msgBufSize := sendAll_msgBufSize L s
  have hhd : (sendAll s L).head = (s.head + L.length) % s.msgBufSize :=
    sendAll_head L s hh
  have htl : (sendAll s L).tail = s.head := by rw [sendAll_tail, ← he]
  have hh1 : (sendAll s L).head < (sendAll s L).msgBufSize := by
    rw [hhd, hsz]; exact Nat.mod_lt _ hcap
  have ht1 : (sendAll s L).tail < (sendAll s L).msgBufSize := by
    rw [htl, hsz]; exact hh
  have hd : circDist (sendAll s L).msgBufSize (sendAll s L).tail (sendAll s L).head
      = L.length := by
    rw [hsz, htl, hhd]
    exact circDist_add s.msgBufSize s.head L.length hh (by omega)
  rw [MCF_receive_drain (sendAll s L) (by rw [hsz]; exact h65) hh1 ht1, hd]
  simp only [Prod.mk.injEq]
  refine ⟨trivial, ?_⟩
  apply List.ext_getElem
  · simp
  · intro j hj1 hj2
    rw [List.length_map, List.length_range] at hj1
    rw [List.getElem_map, List.getElem_map, List.getElem_range]
    have hkpos : 0 < L.length := by omega
    have hjle : j ≤ L.length - 1 := by omega
    have hB := sendAll_getD L s hh hlen (L.length - 1 - j) (by omega) (by omega)
    have hidx : (s.head + L.length - (L.length - 1 - j)) % s.msgBufSize
        = ((sendAll s L).tail + 1 + j) % (sendAll s L).msgBufSize := by
      rw [htl, hsz]
      congr 1
      omega
    have hnum : L.length - 1 - (L.length - 1 - j) = j := by omega
    rw [hidx, hnum] at hB
    rw [List.length_map] at hj2
    rw [hB, List.getD_eq_getElem L default hj2]

/-- Alternating sends and drains from an empty in-range state delivers,
per drain, exactly that batch of messages in send order, provided no
batch exceeds capacity − 1 messages. -/
lemma runBatches_spec {P : Type} (bs : List (List SendOp)) :
    ∀ (s : MCF_t P), s.msgBufSize ≤ 65535 → s.head < s.msgBufSize →
    s.head = s.tail → s.msgBuf.length = s.msgBufSize →
    (∀ b ∈ bs, b.length ≤ s.msgBufSize - 1) →
    (runBatches s bs).2 = bs.map (fun b => b.map opMsg) := by
  induction bs with
  | nil => intro s _ _ _ _ _; rfl
  | cons b bs ih =>
    intro s h65 hh he hlen hb
    have hcap : 0 < s.msgBufSize := by omega
    have hrt := sends_then_drain s b h65 hh he hlen (hb b (by simp))
    show ((MCF_receive (sendAll s b)).1, _ :: (runBatches (MCF_receive (sendAll s b)).1 bs).2).2
      = _
    rw [hrt]
    dsimp only
    have hsz : (sendAll s b).msgBufSize = s.msgBufSize := sendAll_msgBufSize b s
    have hnext := ih { sendAll s b with tail := (sendAll s b).head }
      (by dsimp only; rw [hsz]; exact h65)
      (by dsimp only; rw [hsz, sendAll_head b s hh]; exact Nat.mod_lt _ hcap)
      rfl
      (by dsimp only; rw [sendAll_length, hlen, hsz])
      (by dsimp only; rw [hsz]; intro b1 hb1; exact hb b1 (by simp [hb1]))
    rw [List.map_cons, hnext]

/-- The drain loop never modifies the head cursor. -/
lemma MCF_receive_loop_head {P : Type} (fuel : Nat) :
    ∀ (s : MCF_t P), (MCF_receive_loop fuel s).1.head = s.head := by
  induction fuel with
  | zero => intro s; rfl
  | succ fuel ih =>
    intro s
    by_cases he : s.head = s.tail
    · rw [MCF_receive_loop_exit fuel s he]
    · rw [MCF_receive_loop_cons fuel s he]
      exact ih _

/-- Once the drain loop has reached its exit condition within some fuel
budget, any larger budget produces the identical result: the loop has
genuinely terminated rather than run out of fuel. -/
lemma MCF_receive_loop_stable {P : Type} (fuel : Nat) :
    ∀ (s : MCF_t P),
    (MCF_receive_loop fuel s).1.head = (MCF_receive_loop fuel s).1.tail →
    ∀ g, fuel ≤ g → MCF_receive_loop g s = MCF_receive_loop fuel s := by
  induction fuel with
  | zero =>
    intro s hstop g _
    rw [MCF_receive_loop_zero] at hstop ⊢
    cases g with
    | zero => rfl
    | succ g => rw [MCF_receive_loop_exit g s hstop]
  | succ fuel ih =>
    intro s hstop g hg
    by_cases he : s.head = s.tail
    · rw [MCF_receive_loop_exit fuel s he]
      cases g with
      | zero => omega
      | succ g => rw [MCF_receive_loop_exit g s he]
    · cases g with
      | zero => omega
      | succ g =>
        rw [MCF_receive_loop_cons fuel s he] at hstop
        rw [MCF_receive_loop_cons fuel s he, MCF_receive_loop_cons g s he]
        rw [ih _ hstop g (by omega)]

/-! ### Claim theorems -/

lemma set_getD_self (l : List MCF_Message_t) (i : Nat) (x : MCF_Message_t)
    (hi : i < l.length) : (l.set i x).getD i default = x := by
  rw [List.getD_eq_getElem?_getD, List.getElem?_set_self hi]
  rfl

lemma doSend_head_eq {P : Type} (s : MCF_t P) (op : SendOp)
    (hh : s.head < s.msgBufSize) :
    (doSend s op).head = (s.head + 1) % s.msgBufSize := by
  rw [doSend_eq s op hh]

lemma doSend_slot {P : Type} (s : MCF_t P) (op : SendOp)
    (hh : s.head < s.msgBufSize) (hlen : s.msgBuf.length = s.msgBufSize) :
    (doSend s op).msgBuf.getD ((s.head + 1) % s.msgBufSize) default = opMsg op := by
  rw [doSend_eq s op hh]
  dsimp only
  exact set_getD_self s.msgBuf _ (opMsg op)
    (by rw [hlen]; exact Nat.mod_lt _ (by omega))

lemma circDist_int (cap t h : Nat) (ht : t < cap) (_hh : h < cap) :
    ((circDist cap t h : Nat) : Int) = ((h : Int) - t) % cap := by
  unfold circDist
  push_cast [Nat.cast_sub (show t ≤ h + cap by omega)]
  rw [show (h : Int) + cap - t = (h - t) + cap * 1 by ring,
    Int.add_mul_emod_self_left]

/-- C2: for every configured channel whose head cursor is in range, each
of the five send operations advances the head to `(head + 1) mod
capacity` and leaves the slot at that new index holding the sent value
in the payload field of the operation's type together with the sent
identifier. -/
theorem mcf_C2_send_effect {P : Type} (s : MCF_t P) (msgID : Nat)
    (hh : s.head < s.msgBufSize) (hlen : s.msgBuf.length = s.msgBufSize) :
    (∀ v : Nat, (MCF_send_u16 s msgID v).head = (s.head + 1) % s.msgBufSize ∧
      (MCF_send_u16 s msgID v).msgBuf.getD ((s.head + 1) % s.msgBufSize) default
        = { msgID := msgID, payload := MCF_Payload.u16 v }) ∧
    (∀ v : Int, (MCF_send_i16 s msgID v).head = (s.head + 1) % s.msgBufSize ∧
      (MCF_send_i16 s msgID v).msgBuf.getD ((s.head + 1) % s.msgBufSize) default
        = { msgID := msgID, payload := MCF_Payload.i16 v }) ∧
    (∀ v : Nat, (MCF_send_u32 s msgID v).head = (s.head + 1) % s.msgBufSize ∧
      (MCF_send_u32 s msgID v).msgBuf.getD ((s.head + 1) % s.msgBufSize) default
        = { msgID := msgID, payload := MCF_Payload.u32 v }) ∧
    (∀ v : Int, (MCF_send_i32 s msgID v).head = (s.head + 1) % s.msgBufSize ∧
      (MCF_send_i32 s msgID v).msgBuf.getD ((s.head + 1) % s.msgBufSize) default
        = { msgID := msgID, payload := MCF_Payload.i32 v }) ∧
    (∀ v : Rat, (MCF_send_f32 s msgID v).head = (s.head + 1) % s.msgBufSize ∧
      (MCF_send_f32 s msgID v).msgBuf.getD ((s.head + 1) % s.msgBufSize) default
        = { msgID := msgID, payload := MCF_Payload.f32 v }) :=
  ⟨fun v => ⟨doSend_head_eq s (SendOp.u16 msgID v) hh,
      doSend_slot s (SendOp.u16 msgID v) hh hlen⟩,
   fun v => ⟨doSend_head_eq s (SendOp.i16 msgID v) hh,
      doSend_slot s (SendOp.i16 msgID v) hh hlen⟩,
   fun v => ⟨doSend_head_eq s (SendOp.u32 msgID v) hh,
      doSend_slot s (SendOp.u32 msgID v) hh hlen⟩,
   fun v => ⟨doSend_head_eq s (SendOp.i32 msgID v) hh,
      doSend_slot s (SendOp.i32 msgID v) hh hlen⟩,
   fun v => ⟨doSend_head_eq s (SendOp.f32 msgID v) hh,
      doSend_slot s (SendOp.f32 msgID v) hh hlen⟩⟩

/-- Witness for C2 at a concrete in-range channel state. -/
theorem mcf_C2_send_effect_witness :
    (MCF_send_u16
        ({ msgBuf := [{ msgID := 0, payload := MCF_Payload.u16 0 },
                      { msgID := 0, payload := MCF_Payload.u16 0 },
                      { msgID := 0, payload := MCF_Payload.u16 0 }],
           head := 2, tail := 0, msgBufSize := 3, msgParser := 0 } : MCF_t Nat)
        5 77).head = (2 + 1) % 3 ∧
    (MCF_send_u16
        ({ msgBuf := [{ msgID := 0, payload := MCF_Payload.u16 0 },
                      { msgID := 0, payload := MCF_Payload.u16 0 },
                      { msgID := 0, payload := MCF_Payload.u16 0 }],
           head := 2, tail := 0, msgBufSize := 3, msgParser := 0 } : MCF_t Nat)
        5 77).msgBuf.getD ((2 + 1) % 3) default
      = { msgID := 5, payload := MCF_Payload.u16 77 } :=
  (mcf_C2_send_effect
    ({ msgBuf := [{ msgID := 0, payload := MCF_Payload.u16 0 },
                  { msgID := 0, payload := MCF_Payload.u16 0 },
                  { msgID := 0, payload := MCF_Payload.u16 0 }],
       head := 2, tail := 0, msgBufSize := 3, msgParser := 0 } : MCF_t Nat)
    5 (by decide) (by decide)).1 77

/-- C3: a single `MCF_receive` on an in-range state invokes the parser
exactly `(head − tail) mod capacity` times, once per pending slot in
circular order starting at `tail + 1`, and finishes with `tail = head`;
in particular a drain of an empty channel (`head = tail`) invokes the
parser zero times and changes nothing. -/
theorem mcf_C3_receive_spec {P : Type} (s : MCF_t P)
    (h65 : s.msgBufSize ≤ 65535) (hh : s.head < s.msgBufSize)
    (ht : s.tail < s.msgBufSize) :
    MCF_receive s =
      ({ s with tail := s.head },
       (List.range (circDist s.msgBufSize s.tail s.head)).map
         (fun i => s.msgBuf.getD ((s.tail + 1 + i) % s.msgBufSize) default)) ∧
    (MCF_receive s).2.length = circDist s.msgBufSize s.tail s.head ∧
    ((circDist s.msgBufSize s.tail s.head : Nat) : Int)
      = ((s.head : Int) - s.tail) % s.msgBufSize ∧
    (s.head = s.tail → MCF_receive s = (s, [])) := by
  have hdr := MCF_receive_drain s h65 hh ht
  refine ⟨hdr, ?_, circDist_int s.msgBufSize s.tail s.head ht hh, ?_⟩
  · rw [hdr]
    simp
  · intro he
    rw [hdr, MCF_t_eta_tail s he,
      (circDist_eq_zero_iff s.msgBufSize s.tail s.head ht hh).mpr he]
    simp

/-- Witness for C3 at a concrete state with two pending messages. -/
theorem mcf_C3_receive_spec_witness :
    (MCF_receive
        ({ msgBuf := [{ msgID := 0, payload := MCF_Payload.u16 0 },
                      { msgID := 1, payload := MCF_Payload.u16 1 },
                      { msgID := 2, payload := MCF_Payload.u16 2 }],
           head := 0, tail := 1, msgBufSize := 3, msgParser := 0 } : MCF_t Nat)).2.length
      = circDist 3 1 0 :=
  (mcf_C3_receive_spec
    ({ msgBuf := [{ msgID := 0, payload := MCF_Payload.u16 0 },
                  { msgID := 1, payload := MCF_Payload.u16 1 },
                  { msgID := 2, payload := MCF_Payload.u16 2 }],
       head := 0, tail := 1, msgBufSize := 3, msgParser := 0 } : MCF_t Nat)
    (by decide) (by decide) (by decide)).2.1

/-- C6: each configuration mode writes exactly the cursors it owns
(`TX` resets head only, `RX` resets tail only, `RXTX` resets both), all
three store the buffer and the capacity, and the `RX`/`RXTX` modes store
the parser; the cursor a mode does not own, and the parser field in `TX`
mode, keep their prior contents. -/
theorem mcf_C6_init_frame :
    (∀ (P : Type) (oldParser : P) (tailVal : Nat) (buf : List MCF_Message_t)
        (n : Nat),
      (MCF_init_TX oldParser tailVal buf n).head = 0 ∧
      (MCF_init_TX oldParser tailVal buf n).tail = tailVal ∧
      (MCF_init_TX oldParser tailVal buf n).msgBuf = buf ∧
      (MCF_init_TX oldParser tailVal buf n).msgBufSize = n ∧
      (MCF_init_TX oldParser tailVal buf n).msgParser = oldParser) ∧
    (∀ (P : Type) (headVal : Nat) (buf : List MCF_Message_t) (n : Nat) (p : P),
      (MCF_init_RX headVal buf n p).head = headVal ∧
      (MCF_init_RX headVal buf n p).tail = 0 ∧
      (MCF_init_RX headVal buf n p).msgBuf = buf ∧
      (MCF_init_RX headVal buf n p).msgBufSize = n ∧
      (MCF_init_RX headVal buf n p).msgParser = p) ∧
    (∀ (P : Type) (buf : List MCF_Message_t) (n : Nat) (p : P),
      (MCF_init_RXTX buf n p).head = 0 ∧
      (MCF_init_RXTX buf n p).tail = 0 ∧
      (MCF_init_RXTX buf n p).msgBuf = buf ∧
      (MCF_init_RXTX buf n p).msgBufSize = n ∧
      (MCF_init_RXTX buf n p).msgParser = p) :=
  ⟨fun _ _ _ _ _ => ⟨rfl, rfl, rfl, rfl, rfl⟩,
   fun _ _ _ _ _ => ⟨rfl, rfl, rfl, rfl, rfl⟩,
   fun _ _ _ _ => ⟨rfl, rfl, rfl, rfl, rfl⟩⟩

/-- C7: a send mutates only the newly claimed head slot and the head
cursor: the tail cursor, capacity, parser, buffer length, and every
other buffer slot are unchanged.  `doSend` ranges over all five
`MCF_send_*` variants. -/
theorem mcf_C7_send_frame {P : Type} (s : MCF_t P) (op : SendOp)
    (hh : s.head < s.msgBufSize) :
    (doSend s op).tail = s.tail ∧
    (doSend s op).msgBufSize = s.msgBufSize ∧
    (doSend s op).msgParser = s.msgParser ∧
    (doSend s op).msgBuf.length = s.msgBuf.length ∧
    ∀ i, i ≠ (s.head + 1) % s.msgBufSize →
      (doSend s op).msgBuf.getD i default = s.msgBuf.getD i default := by
  refine ⟨doSend_tail s op, doSend_msgBufSize s op, doSend_msgParser s op,
    doSend_length s op, ?_⟩
  intro i hi
  rw [doSend_eq s op hh]
  dsimp only
  rw [List.getD_eq_getElem?_getD, List.getElem?_set_ne (Ne.symm hi),
    ← List.getD_eq_getElem?_getD]

/-- Witness for C7 at a concrete state and send. -/
theorem mcf_C7_send_frame_witness :
    (doSend
        ({ msgBuf := [{ msgID := 0, payload := MCF_Payload.u16 0 },
                      { msgID := 0, payload := MCF_Payload.u16 0 }],
           head := 0, tail := 1, msgBufSize := 2, msgParser := 0 } : MCF_t Nat)
        (SendOp.u16 9 9)).tail = 1 :=
  (mcf_C7_send_frame
    ({ msgBuf := [{ msgID := 0, payload := MCF_Payload.u16 0 },
                  { msgID := 0, payload := MCF_Payload.u16 0 }],
       head := 0, tail := 1, msgBufSize := 2, msgParser := 0 } : MCF_t Nat)
    (SendOp.u16 9 9) (by decide)).1

/-- C1: on a channel of capacity at least 2 configured with
`MCF_init_RXTX`, any alternation of send batches (any mix of the five
payload types) and drains in which each batch holds at most
capacity − 1 messages makes every drain invoke the parser exactly once
per message of its batch, in send order, with the identifier and
payload of the corresponding send; wraparound across the index boundary
is covered since batches may repeat indefinitely. -/
theorem mcf_C1_fifo {P : Type} (p : P) (buf : List MCF_Message_t) (cap : Nat)
    (batches : List (List SendOp)) (hcap2 : 2 ≤ cap) (h65 : cap ≤ 65535)
    (hlen : buf.length = cap) (hb : ∀ b ∈ batches, b.length ≤ cap - 1) :
    (runBatches (MCF_init_RXTX buf cap p) batches).2
      = batches.map (fun b => b.map opMsg) :=
  runBatches_spec batches (MCF_init_RXTX buf cap p) h65
    (by show (0 : Nat) < cap; omega) rfl hlen hb

/-- Witness for C1: capacity 3, two batches of two messages each, the
second batch crossing the wrap boundary. -/
theorem mcf_C1_fifo_witness :
    (runBatches
        (MCF_init_RXTX
          [{ msgID := 0, payload := MCF_Payload.u16 0 },
           { msgID := 0, payload := MCF_Payload.u16 0 },
           { msgID := 0, payload := MCF_Payload.u16 0 }] 3 (0 : Nat))
        [[SendOp.u16 1 10, SendOp.i16 2 (-5)],
         [SendOp.u32 3 7, SendOp.i32 4 (-9)]]).2
      = [[SendOp.u16 1 10, SendOp.i16 2 (-5)],
         [SendOp.u32 3 7, SendOp.i32 4 (-9)]].map (fun b => b.map opMsg) :=
  mcf_C1_fifo (0 : Nat)
    [{ msgID := 0, payload := MCF_Payload.u16 0 },
     { msgID := 0, payload := MCF_Payload.u16 0 },
     { msgID := 0, payload := MCF_Payload.u16 0 }] 3
    [[SendOp.u16 1 10, SendOp.i16 2 (-5)],
     [SendOp.u32 3 7, SendOp.i32 4 (-9)]]
    (by decide) (by decide) (by decide) (by decide)

/-- C4: on any state whose head cursor is in range, the drain loop of
`MCF_receive` terminates without blocking: within capacity + 1 loop
iterations it reaches the exit condition (final tail equals head), and
granting any larger iteration budget yields the identical result. -/
theorem mcf_C4_receive_terminates {P : Type} (s : MCF_t P)
    (h65 : s.msgBufSize ≤ 65535) (hh : s.head < s.msgBufSize) :
    (MCF_receive_loop (s.msgBufSize + 1) s).1.tail = s.head ∧
    ∀ g, s.msgBufSize + 1 ≤ g →
      MCF_receive_loop g s = MCF_receive_loop (s.msgBufSize + 1) s := by
  by_cases he : s.head = s.tail
  · have h1 : MCF_receive_loop (s.msgBufSize + 1) s = (s, []) :=
      MCF_receive_loop_exit s.msgBufSize s he
    refine ⟨by rw [h1]; exact he.symm, ?_⟩
    intro g hg
    exact MCF_receive_loop_stable (s.msgBufSize + 1) s (by rw [h1]; exact he) g hg
  · have hcap : 0 < s.msgBufSize := by omega
    have ht1 : (if s.msgBufSize ≤ (s.tail + 1) % 65536 then 0
        else (s.tail + 1) % 65536) < s.msgBufSize := by
      split_ifs with h
      · omega
      · omega
    have hd := MCF_receive_loop_drain s.msgBufSize
      { s with tail := if s.msgBufSize ≤ (s.tail + 1) % 65536 then 0
               else (s.tail + 1) % 65536 }
      h65 hh ht1 (Nat.le_of_lt (Nat.mod_lt _ hcap))
    have htail : (MCF_receive_loop (s.msgBufSize + 1) s).1.tail = s.head := by
      rw [MCF_receive_loop_cons s.msgBufSize s he]
      dsimp only
      rw [hd.1]
    refine ⟨htail, ?_⟩
    intro g hg
    refine MCF_receive_loop_stable (s.msgBufSize + 1) s ?_ g hg
    rw [MCF_receive_loop_head, htail]

/-- Witness for C4 at a concrete nonempty state. -/
theorem mcf_C4_receive_terminates_witness :
    (MCF_receive_loop (3 + 1)
        ({ msgBuf := [{ msgID := 0, payload := MCF_Payload.u16 0 },
                      { msgID := 1, payload := MCF_Payload.u16 1 },
                      { msgID := 2, payload := MCF_Payload.u16 2 }],
           head := 1, tail := 2, msgBufSize := 3, msgParser := 0 } : MCF_t Nat)).1.tail
      = 1 :=
  (mcf_C4_receive_terminates
    ({ msgBuf := [{ msgID := 0, payload := MCF_Payload.u16 0 },
                  { msgID := 1, payload := MCF_Payload.u16 1 },
                  { msgID := 2, payload := MCF_Payload.u16 2 }],
       head := 1, tail := 2, msgBufSize := 3, msgParser := 0 } : MCF_t Nat)
    (by decide) (by decide)).1

/-- C5: every operation preserves the cursor range invariant
`0 ≤ head < capacity` and `0 ≤ tail < capacity`: the three
configuration modes establish it for the cursors they reset (assuming
it for the externally managed cursor), and every send and every drain
preserve it.  `doSend` ranges over all five `MCF_send_*` variants. -/
theorem mcf_C5_cursor_invariant :
    (∀ (P : Type) (oldParser : P) (tailVal : Nat) (buf : List MCF_Message_t)
        (n : Nat), 1 ≤ n → tailVal < n →
      (MCF_init_TX oldParser tailVal buf n).head < n ∧
      (MCF_init_TX oldParser tailVal buf n).tail < n) ∧
    (∀ (P : Type) (headVal : Nat) (buf : List MCF_Message_t) (n : Nat) (p : P),
      1 ≤ n → headVal < n →
      (MCF_init_RX headVal buf n p).head < n ∧
      (MCF_init_RX headVal buf n p).tail < n) ∧
    (∀ (P : Type) (buf : List MCF_Message_t) (n : Nat) (p : P), 1 ≤ n →
      (MCF_init_RXTX buf n p).head < n ∧ (MCF_init_RXTX buf n p).tail < n) ∧
    (∀ (P : Type) (s : MCF_t P) (op : SendOp),
      s.head < s.msgBufSize → s.tail < s.msgBufSize →
      (doSend s op).head < s.msgBufSize ∧ (doSend s op).tail < s.msgBufSize) ∧
    (∀ (P : Type) (s : MCF_t P), s.msgBufSize ≤ 65535 →
      s.head < s.msgBufSize → s.tail < s.msgBufSize →
      (MCF_receive s).1.head < s.msgBufSize ∧
      (MCF_receive s).1.tail < s.msgBufSize) := by
  refine ⟨?_, ?_, ?_, ?_, ?_⟩
  · intro _ _ tailVal _ n h1 h2
    exact ⟨by show (0 : Nat) < n; omega, h2⟩
  · intro _ headVal _ n _ h1 h2
    exact ⟨h2, by show (0 : Nat) < n; omega⟩
  · intro _ _ n _ h1
    exact ⟨by show (0 : Nat) < n; omega, by show (0 : Nat) < n; omega⟩
  · intro P s op hh ht
    refine ⟨doSend_head_lt s op (by omega), ?_⟩
    rw [doSend_tail]
    exact ht
  · intro P s h65 hh ht
    have hdr := MCF_receive_drain s h65 hh ht
    rw [hdr]
    exact ⟨hh, hh⟩

/-- Witness for C5 applied to its send and drain components at concrete
states. -/
theorem mcf_C5_cursor_invariant_witness :
    ((doSend
        ({ msgBuf := [{ msgID := 0, payload := MCF_Payload.u16 0 },
                      { msgID := 0, payload := MCF_Payload.u16 0 }],
           head := 1, tail := 0, msgBufSize := 2, msgParser := 0 } : MCF_t Nat)
        (SendOp.i32 3 (-1))).head < 2 ∧
      (doSend
        ({ msgBuf := [{ msgID := 0, payload := MCF_Payload.u16 0 },
                      { msgID := 0, payload := MCF_Payload.u16 0 }],
           head := 1, tail := 0, msgBufSize := 2, msgParser := 0 } : MCF_t Nat)
        (SendOp.i32 3 (-1))).tail < 2) ∧
    ((MCF_receive
        ({ msgBuf := [{ msgID := 0, payload := MCF_Payload.u16 0 },
                      { msgID := 0, payload := MCF_Payload.u16 0 }],
           head := 1, tail := 0, msgBufSize := 2, msgParser := 0 } : MCF_t Nat)).1.head < 2 ∧
      (MCF_receive
        ({ msgBuf := [{ msgID := 0, payload := MCF_Payload.u16 0 },
                      { msgID := 0, payload := MCF_Payload.u16 0 }],
           head := 1, tail := 0, msgBufSize := 2, msgParser := 0 } : MCF_t Nat)).1.tail < 2) :=
  ⟨mcf_C5_cursor_invariant.2.2.2.1 Nat
    ({ msgBuf := [{ msgID := 0, payload := MCF_Payload.u16 0 },
                  { msgID := 0, payload := MCF_Payload.u16 0 }],
       head := 1, tail := 0, msgBufSize := 2, msgParser := 0 } : MCF_t Nat)
    (SendOp.i32 3 (-1)) (by decide) (by decide),
   mcf_C5_cursor_invariant.2.2.2.2 Nat
    ({ msgBuf := [{ msgID := 0, payload := MCF_Payload.u16 0 },
                  { msgID := 0, payload := MCF_Payload.u16 0 }],
       head := 1, tail := 0, msgBufSize := 2, msgParser := 0 } : MCF_t Nat)
    (by decide) (by decide) (by decide)⟩

/-- Counterexample to C8 as stated: on a channel of capacity 1 the
single float send is never delivered — the drain performs zero parser
invocations instead of the claimed one. -/
theorem mcf_C8_cex_capacity_one :
    (MCF_receive (MCF_send_f32
        (MCF_init_RXTX [{ msgID := 0, payload := MCF_Payload.u16 0 }] 1 (0 : Nat))
        7 (7/2))).2 = [] ∧
    (MCF_receive (MCF_send_f32
        (MCF_init_RXTX [{ msgID := 0, payload := MCF_Payload.u16 0 }] 1 (0 : Nat))
        7 (7/2))).2.length ≠ 1 := by
  decide

/-- C8 (amended: capacity at least 2): sending one float message with
id 7 and value 3.5 on a freshly configured channel and draining yields
exactly one parser invocation carrying that identifier and payload, and
afterwards the cursors are equal. -/
theorem mcf_C8_single_round_trip {P : Type} (p : P) (buf : List MCF_Message_t)
    (cap : Nat) (h2 : 2 ≤ cap) (h65 : cap ≤ 65535) (hlen : buf.length = cap) :
    (MCF_receive (MCF_send_f32 (MCF_init_RXTX buf cap p) 7 (7/2))).2
      = [{ msgID := 7, payload := MCF_Payload.f32 (7/2) }] ∧
    (MCF_receive (MCF_send_f32 (MCF_init_RXTX buf cap p) 7 (7/2))).1.head
      = (MCF_receive (MCF_send_f32 (MCF_init_RXTX buf cap p) 7 (7/2))).1.tail := by
  have hrt := sends_then_drain (MCF_init_RXTX buf cap p) [SendOp.f32 7 (7/2)]
    h65 (by show (0 : Nat) < cap; omega) rfl hlen
    (by rw [List.length_singleton]; show 1 ≤ cap - 1; omega)
  have hsend : MCF_send_f32 (MCF_init_RXTX buf cap p) 7 (7/2)
      = sendAll (MCF_init_RXTX buf cap p) [SendOp.f32 7 (7/2)] := rfl
  rw [hsend, hrt]
  exact ⟨rfl, rfl⟩

/-- Witness for the amended C8 at capacity 2. -/
theorem mcf_C8_single_round_trip_witness :
    (MCF_receive (MCF_send_f32
        (MCF_init_RXTX [{ msgID := 0, payload := MCF_Payload.u16 0 },
                        { msgID := 0, payload := MCF_Payload.u16 0 }] 2 (0 : Nat))
        7 (7/2))).2
      = [{ msgID := 7, payload := MCF_Payload.f32 (7/2) }] :=
  (mcf_C8_single_round_trip (0 : Nat)
    [{ msgID := 0, payload := MCF_Payload.u16 0 },
     { msgID := 0, payload := MCF_Payload.u16 0 }] 2
    (by decide) (by decide) (by decide)).1

/-- Counterexample to C9 as stated: capacity 2, two sends (more than
capacity − 1) before any drain.  The earliest message, id 1, is *not*
overwritten — it still sits intact in buffer slot 1 — yet the drain
delivers nothing at all: head has wrapped onto tail, so every message
(not only an overwritten one) is lost. -/
theorem mcf_C9_cex_no_overwrite :
    (sendAll
        (MCF_init_RXTX [{ msgID := 0, payload := MCF_Payload.u16 0 },
                        { msgID := 0, payload := MCF_Payload.u16 0 }] 2 (0 : Nat))
        [SendOp.u16 1 10, SendOp.u16 2 20]).msgBuf
      = [{ msgID := 2, payload := MCF_Payload.u16 20 },
         { msgID := 1, payload := MCF_Payload.u16 10 }] ∧
    (MCF_receive (sendAll
        (MCF_init_RXTX [{ msgID := 0, payload := MCF_Payload.u16 0 },
                        { msgID := 0, payload := MCF_Payload.u16 0 }] 2 (0 : Nat))
        [SendOp.u16 1 10, SendOp.u16 2 20])).2 = [] := by
  decide

/-- C9 (amended): if more than capacity − 1 sends occur before any
drain, the earliest messages are silently lost: the sends never fail
(they are total and return no error), and the subsequent drain gives
the consumer no indication of loss — it delivers exactly the last
`k mod capacity` of the `k` sent messages, in order, and the earlier
`k − (k mod capacity)` messages are never passed to the parser.  Loss
need not involve any buffer overwrite: with exactly `capacity` sends
nothing is overwritten yet nothing is delivered (the counterexample
above). -/
theorem mcf_C9_overflow {P : Type} (p : P) (buf : List MCF_Message_t)
    (cap : Nat) (L : List SendOp) (h1 : 1 ≤ cap) (h65 : cap ≤ 65535)
    (hlen : buf.length = cap) (hk : cap - 1 < L.length) :
    (MCF_receive (sendAll (MCF_init_RXTX buf cap p) L)).2
      = (L.drop (L.length - L.length % cap)).map opMsg ∧
    (MCF_receive (sendAll (MCF_init_RXTX buf cap p) L)).2.length < L.length := by
  have hcap : 0 < cap := h1
  have hk0 : cap ≤ L.length := by omega
  have hr : L.length % cap < cap := Nat.mod_lt _ hcap
  have hrk : L.length % cap ≤ L.length := Nat.mod_le _ _
  have hhd : (sendAll (MCF_init_RXTX buf cap p) L).head = L.length % cap := by
    rw [sendAll_head L _ (by show (0 : Nat) < cap; omega)]
    show (0 + L.length) % cap = L.length % cap
    rw [Nat.zero_add]
  have htl : (sendAll (MCF_init_RXTX buf cap p) L).tail = 0 := by
    rw [sendAll_tail]
    exact rfl
  have hsz : (sendAll (MCF_init_RXTX buf cap p) L).msgBufSize = cap := by
    rw [sendAll_msgBufSize]
    exact rfl
  have hdr := MCF_receive_drain (sendAll (MCF_init_RXTX buf cap p) L)
    (by rw [hsz]; exact h65) (by rw [hsz, hhd]; exact hr)
    (by rw [hsz, htl]; exact hcap)
  have hd : circDist (sendAll (MCF_init_RXTX buf cap p) L).msgBufSize
      (sendAll (MCF_init_RXTX buf cap p) L).tail
      (sendAll (MCF_init_RXTX buf cap p) L).head = L.length % cap := by
    rw [hsz, htl, hhd]
    unfold circDist
    rw [Nat.sub_zero, Nat.add_mod_right, Nat.mod_eq_of_lt hr]
  have hq : L.length - L.length % cap = cap * (L.length / cap) := by
    have hdm := Nat.div_add_mod L.length cap
    omega
  constructor
  · rw [hdr]
    dsimp only
    rw [hd]
    simp only [htl, hsz, Nat.zero_add]
    apply List.ext_getElem
    · rw [List.length_map, List.length_range, List.length_map, List.length_drop]
      omega
    · intro j hj1 hj2
      rw [List.length_map, List.length_range] at hj1
      rw [List.getElem_map, List.getElem_range, List.getElem_map,
        List.getElem_drop]
      have hB := sendAll_getD L (MCF_init_RXTX buf cap p)
        (by show (0 : Nat) < cap; omega) hlen
        (L.length % cap - 1 - j) (by omega)
        (by show L.length % cap - 1 - j < cap; omega)
      dsimp only [MCF_init_RXTX] at hB
      have hidx : (0 + L.length - (L.length % cap - 1 - j)) % cap
          = (1 + j) % cap := by
        rw [show 0 + L.length - (L.length % cap - 1 - j)
            = cap * (L.length / cap) + (1 + j) by omega, Nat.mul_add_mod]
      have hnum : L.length - 1 - (L.length % cap - 1 - j)
          = L.length - L.length % cap + j := by omega
      rw [hidx, hnum] at hB
      have hB2 : (sendAll (MCF_init_RXTX buf cap p) L).msgBuf.getD
          ((1 + j) % cap) default
          = opMsg (L.getD (L.length - L.length % cap + j) default) := hB
      rw [hB2]
      congr 1
      exact List.getD_eq_getElem L default (by omega)
  · rw [hdr]
    dsimp only
    rw [hd]
    rw [List.length_map, List.length_range]
    omega

/-- Witness for the amended C9: capacity 3, four sends, only the last
4 mod 3 = 1 message delivered. -/
theorem mcf_C9_overflow_witness :
    (MCF_receive (sendAll
        (MCF_init_RXTX [{ msgID := 0, payload := MCF_Payload.u16 0 },
                        { msgID := 0, payload := MCF_Payload.u16 0 },
                        { msgID := 0, payload := MCF_Payload.u16 0 }] 3 (0 : Nat))
        [SendOp.u16 1 1, SendOp.u16 2 2, SendOp.u16 3 3, SendOp.u16 4 4])).2
      = ([SendOp.u16 1 1, SendOp.u16 2 2, SendOp.u16 3 3, SendOp.u16 4 4].drop
          ([SendOp.u16 1 1, SendOp.u16 2 2, SendOp.u16 3 3, SendOp.u16 4 4].length -
           [SendOp.u16 1 1, SendOp.u16 2 2, SendOp.u16 3 3, SendOp.u16 4 4].length % 3)).map
          opMsg :=
  (mcf_C9_overflow (0 : Nat)
    [{ msgID := 0, payload := MCF_Payload.u16 0 },
     { msgID := 0, payload := MCF_Payload.u16 0 },
     { msgID := 0, payload := MCF_Payload.u16 0 }] 3
    [SendOp.u16 1 1, SendOp.u16 2 2, SendOp.u16 3 3, SendOp.u16 4 4]
    (by decide) (by decide) (by decide) (by decide)).1

/-- Capacity-one send: the computed next head index is always 0, so the
whole slot-0 write happens regardless of the previous head value. -/
lemma doSend_cap_one {P : Type} (s : MCF_t P) (op : SendOp)
    (h1 : s.msgBufSize = 1) :
    doSend s op = { s with head := 0, msgBuf := s.msgBuf.set 0 (opMsg op) } := by
  have hc : s.msgBufSize - 1 ≤ s.head := by omega
  cases op <;> simp only [doSend, MCF_send_u16, MCF_send_i16, MCF_send_u32,
    MCF_send_i32, MCF_send_f32, opMsg, if_pos hc]

/-- C10: on a capacity-1 channel every send writes slot 0 and leaves
the head cursor at 0, so after `MCF_init_RXTX` (tail = 0) the cursors
are permanently equal and `MCF_receive` never invokes the parser: no
message sent on a capacity-1 channel is ever delivered. -/
theorem mcf_C10_capacity_one :
    (∀ (P : Type) (s : MCF_t P) (op : SendOp), s.msgBufSize = 1 →
      (doSend s op).head = 0 ∧ (doSend s op).msgBuf = s.msgBuf.set 0 (opMsg op)) ∧
    (∀ (P : Type) (p : P) (buf : List MCF_Message_t) (L : List SendOp),
      (sendAll (MCF_init_RXTX buf 1 p) L).head = 0 ∧
      (sendAll (MCF_init_RXTX buf 1 p) L).tail = 0 ∧
      (MCF_receive (sendAll (MCF_init_RXTX buf 1 p) L)).2 = []) := by
  have hgen : ∀ (P : Type) (L : List SendOp) (s : MCF_t P),
      s.msgBufSize = 1 → s.head = 0 → s.tail = 0 →
      (sendAll s L).head = 0 ∧ (sendAll s L).tail = 0 ∧
      (sendAll s L).msgBufSize = 1 := by
    intro P L
    induction L with
    | nil => intro s h1 hh ht; exact ⟨hh, ht, h1⟩
    | cons op L ih =>
      intro s h1 hh ht
      rw [sendAll_cons]
      exact ih (doSend s op) (by rw [doSend_msgBufSize]; exact h1)
        (by rw [doSend_cap_one s op h1]) (by rw [doSend_tail]; exact ht)
  refine ⟨?_, ?_⟩
  · intro P s op h1
    rw [doSend_cap_one s op h1]
    exact ⟨rfl, rfl⟩
  · intro P p buf L
    obtain ⟨hh, ht, h1⟩ := hgen P L (MCF_init_RXTX buf 1 p) rfl rfl rfl
    refine ⟨hh, ht, ?_⟩
    show (MCF_receive_loop (sendAll (MCF_init_RXTX buf 1 p) L).msgBufSize
      (sendAll (MCF_init_RXTX buf 1 p) L)).2 = []
    rw [h1, MCF_receive_loop_exit 0 _ (by rw [hh, ht])]

/-- Witness for C10 at a concrete capacity-1 state and send. -/
theorem mcf_C10_capacity_one_witness :
    (doSend
        ({ msgBuf := [{ msgID := 0, payload := MCF_Payload.u16 0 }],
           head := 0, tail := 0, msgBufSize := 1, msgParser := 0 } : MCF_t Nat)
        (SendOp.u16 3 4)).head = 0 ∧
    (doSend
        ({ msgBuf := [{ msgID := 0, payload := MCF_Payload.u16 0 }],
           head := 0, tail := 0, msgBufSize := 1, msgParser := 0 } : MCF_t Nat)
        (SendOp.u16 3 4)).msgBuf
      = [{ msgID := 0, payload := MCF_Payload.u16 0 }].set 0 (opMsg (SendOp.u16 3 4)) :=
  mcf_C10_capacity_one.1 Nat
    ({ msgBuf := [{ msgID := 0, payload := MCF_Payload.u16 0 }],
       head := 0, tail := 0, msgBufSize := 1, msgParser := 0 } : MCF_t Nat)
    (SendOp.u16 3 4) rfl
